import Mathlib

/-!
Shallow embedding of the snake-game state engine from `src/main.rs`
(moscaen/ratatui_snake).

Modelling conventions:
* `u16` coordinates are `Nat`; the Rust expression
  `(x as i16 + dx) as u16` is modelled by `wrap16 ((x : Int) + dx)`,
  i.e. reduction modulo 2^16 (the two casts compose to a two's-complement
  reinterpretation; arithmetic overflow is given Rust release/wrapping
  semantics throughout).
* `u8` score additions are taken modulo 2^8 and `u16` length additions
  modulo 2^16, again wrapping semantics.
* The process-wide random source is an oracle: every call of
  `Apple::default` consumes one pair `r` supplied as an explicit argument.
  `rng.gen_range(0..167)` / `rng.gen_range(1..14)` guarantee the draw lies
  in `[0,167) × [1,14)`; this contract is the predicate `ValidRand`, and
  reachability only quantifies over in-range draws.
* The indexing `self.snake.body[0]` panics in Rust on an empty vector, so
  the step function returns `Option App`, `none` standing for a panic.
-/

/-- Two's-complement reinterpretation into `u16`: the composite cast
`(... as i16) as u16` in `handle_key_event`, with wrapping arithmetic. -/
def wrap16 (z : Int) : Nat := (z % 65536).toNat

/-- The key codes `handle_key_event` distinguishes; every key outside the
five recognized ones behaves identically, collapsed into `other`. -/
inductive KeyCode where
  | charQ
  | left
  | right
  | down
  | up
  | other
deriving DecidableEq, Repr

/-- Rust `struct Snake { body, head, length }` from `src/main.rs`. -/
structure Snake where
  body : List (Nat × Nat)
  head : String
  length : Nat
deriving DecidableEq, Repr

/-- Source `impl Default for Snake`. -/
def Snake.default : Snake :=
  { body := [(84, 7)], head := "X", length := 1 }

/-- Rust `struct Apple { position, unit }` from `src/main.rs`. -/
structure Apple where
  position : Nat × Nat
  unit : String
deriving DecidableEq, Repr

/-- Source `impl Default for Apple`, with the random draw `r` passed in as the
oracle's answer to the two `gen_range` calls. -/
def Apple.default (r : Nat × Nat) : Apple :=
  { position := r, unit := "🍎" }

/-- The contract of `rng.gen_range(0..167)` and `rng.gen_range(1..14)`:
every pair the random source can actually produce satisfies this. -/
def ValidRand (r : Nat × Nat) : Prop :=
  r.1 < 167 ∧ 1 ≤ r.2 ∧ r.2 < 14

instance : DecidablePred ValidRand := fun r => by
  unfold ValidRand; infer_instance

/-- Rust `struct App { score, exit, snake, apple, direction }`. -/
structure App where
  score : Nat
  exit : Bool
  snake : Snake
  apple : Apple
  direction : Int × Int
deriving DecidableEq, Repr

/-- Source `impl Default for App`, with the initial random apple position `r`. -/
def App.default (r : Nat × Nat) : App :=
  { score := 0
    exit := false
    snake := Snake.default
    apple := Apple.default r
    direction := (1, 0) }

/-- Embeds `App::eat_apple`: if the head equals the apple position, increment the
score (u8, wrapping) and the target length (u16, wrapping) and replace the
apple by a fresh random one; `none` models the `body[0]` panic on an empty
body. -/
def App.eatApple (r : Nat × Nat) (a : App) : Option App :=
  match a.snake.body with
  | [] => none
  | h :: _ =>
    if h = a.apple.position then
      some { a with
              score := (a.score + 1) % 256
              snake := { a.snake with length := (a.snake.length + 1) % 65536 }
              apple := Apple.default r }
    else
      some a

/-- The `match key_event.code` block at the top of `App::handle_key_event`:
`q` calls `exit` (sets the flag), arrows overwrite the direction, anything
else does nothing. -/
def keyUpdate (k : KeyCode) (a : App) : App :=
  match k with
  | .charQ => { a with exit := true }
  | .left  => { a with direction := (-1, 0) }
  | .right => { a with direction := (1, 0) }
  | .down  => { a with direction := (0, 1) }
  | .up    => { a with direction := (0, -1) }
  | .other => a

/-- Embeds `App::handle_key_event`: the key match (quit / direction update /
ignore), followed unconditionally by one movement tick — duplicate the head,
move the copy by the current direction with u16 wrapping, run `eat_apple`,
then pop from the tail until the body is no longer than `length`.
The trailing `while ... pop` loop is exactly `List.take length`. -/
def App.handleKeyEvent (k : KeyCode) (r : Nat × Nat) (a : App) : Option App :=
  let a1 : App := keyUpdate k a
  match a1.snake.body with
  | [] => none
  | h :: t =>
    let nh : Nat × Nat :=
      (wrap16 ((h.1 : Int) + a1.direction.1),
       wrap16 ((h.2 : Int) + a1.direction.2))
    let a2 : App := { a1 with snake := { a1.snake with body := nh :: h :: t } }
    match a2.eatApple r with
    | none => none
    | some a3 =>
      some { a3 with
              snake := { a3.snake with body := a3.snake.body.take a3.snake.length } }

/-- The direction stored after the key match in `handle_key_event`,
before the movement tick uses it. -/
def newDirection (k : KeyCode) (d : Int × Int) : Int × Int :=
  match k with
  | .left  => (-1, 0)
  | .right => (1, 0)
  | .down  => (0, 1)
  | .up    => (0, -1)
  | _ => d

/-- The position the head occupies after the tick triggered by key `k`
moves it: previous head `h` displaced by the post-match direction. -/
def movedHead (k : KeyCode) (d : Int × Int) (h : Nat × Nat) : Nat × Nat :=
  ((wrap16 ((h.1 : Int) + (newDirection k d).1)),
   (wrap16 ((h.2 : Int) + (newDirection k d).2)))

/-- Reachable game states: start from `App::default` with an in-range
initial apple, then apply any sequence of key events, each respawn drawing
an in-range random pair. A `none` step (panic) produces no new state. -/
inductive Reachable : App → Prop where
  | init (r : Nat × Nat) : ValidRand r → Reachable (App.default r)
  | step (s s' : App) (k : KeyCode) (r : Nat × Nat) :
      Reachable s → ValidRand r → s.handleKeyEvent k r = some s' → Reachable s'

/-!
An explicit family of reachable states: the snake oscillates between the
cells (84,7) and (85,7), and the random source always respawns the apple on
the cell the head is about to enter, so every tick consumes. Step `n` goes
from `oscState n` to `oscState (n + 1)`.
-/

/-- The cell occupied by the head after `n` oscillation steps. -/
def oscPos (n : Nat) : Nat × Nat :=
  if n % 2 = 0 then (84, 7) else (85, 7)

/-- The snake body after `n` oscillation steps, head first. -/
def oscBody : Nat → List (Nat × Nat)
  | 0 => [oscPos 0]
  | n + 1 => oscPos (n + 1) :: oscBody n

/-- The tail of `oscBody n`. -/
def oscTail : Nat → List (Nat × Nat)
  | 0 => []
  | n + 1 => oscBody n

/-- The stored direction after `n` oscillation steps. -/
def oscDir (n : Nat) : Int × Int :=
  if n % 2 = 0 ∧ n ≠ 0 then (-1, 0) else (1, 0)

/-- The key pressed at oscillation step `n`. -/
def oscKey (n : Nat) : KeyCode :=
  if n % 2 = 0 then .right else .left

/-- The game state after `n` consecutive consuming oscillation steps. -/
def oscState (n : Nat) : App :=
  { score := n % 256
    exit := false
    snake := { body := oscBody n, head := "X", length := (n + 1) % 65536 }
    apple := { position := oscPos (n + 1), unit := "🍎" }
    direction := oscDir n }

/-- Scenario A start state: one-segment snake at (5,5), apple at (6,5),
heading rightward. -/
def scenA : App :=
  { score := 0
    exit := false
    snake := { body := [(5, 5)], head := "X", length := 1 }
    apple := { position := (6, 5), unit := "🍎" }
    direction := (1, 0) }

/-- Scenario A outcome when the respawn draw lands back on (6,5). -/
def scenABad : App :=
  { score := 1
    exit := false
    snake := { body := [(6, 5), (5, 5)], head := "X", length := 2 }
    apple := { position := (6, 5), unit := "🍎" }
    direction := (1, 0) }

/-- One-segment snake at the left edge cell (0,0). -/
def edgeState : App :=
  { score := 0
    exit := false
    snake := { body := [(0, 0)], head := "X", length := 1 }
    apple := { position := (5, 5), unit := "🍎" }
    direction := (1, 0) }

/-- The state `edgeState` reaches after one Left tick: the u16 cast wraps
the head abscissa to 65535. -/
def edgeResult : App :=
  { score := 0
    exit := false
    snake := { body := [(65535, 0)], head := "X", length := 1 }
    apple := { position := (5, 5), unit := "🍎" }
    direction := (-1, 0) }

/-- The state after one `q` press from `App.default (0, 1)`. -/
def qAfter1 : App :=
  { score := 0
    exit := true
    snake := { body := [(85, 7)], head := "X", length := 1 }
    apple := { position := (0, 1), unit := "🍎" }
    direction := (1, 0) }

/-- The state after a second `q` press. -/
def qAfter2 : App :=
  { score := 0
    exit := true
    snake := { body := [(86, 7)], head := "X", length := 1 }
    apple := { position := (0, 1), unit := "🍎" }
    direction := (1, 0) }

/-- The state after one ignored key press from `App.default (0, 1)`. -/
def otherAfter : App :=
  { score := 0
    exit := false
    snake := { body := [(85, 7)], head := "X", length := 1 }
    apple := { position := (0, 1), unit := "🍎" }
    direction := (1, 0) }

/-- The state produced by the 65535-th consumption: the u16 length counter
wraps to 0 and the trim loop empties the body. -/
def crashState : App :=
  { score := 255
    exit := false
    snake := { body := [], head := "X", length := 0 }
    apple := { position := (84, 7), unit := "🍎" }
    direction := (1, 0) }

lemma keyUpdate_snake (k : KeyCode) (a : App) : (keyUpdate k a).snake = a.snake := by
  cases k <;> rfl

lemma keyUpdate_score (k : KeyCode) (a : App) : (keyUpdate k a).score = a.score := by
  cases k <;> rfl

lemma keyUpdate_apple (k : KeyCode) (a : App) : (keyUpdate k a).apple = a.apple := by
  cases k <;> rfl

lemma keyUpdate_direction (k : KeyCode) (a : App) :
    (keyUpdate k a).direction = newDirection k a.direction := by
  cases k <;> rfl

/-- One tick in the consuming case: if the moved head equals the apple
position, `handle_key_event` increments score and length (wrapping),
replaces the apple with a fresh draw, and trims the extended body to the
new length. -/
lemma handleKeyEvent_eats (k : KeyCode) (r : Nat × Nat) (a : App)
    (p : Nat × Nat) (t : List (Nat × Nat))
    (hb : a.snake.body = p :: t)
    (heat : movedHead k a.direction p = a.apple.position) :
    a.handleKeyEvent k r = some
      { score := (a.score + 1) % 256
        exit := (keyUpdate k a).exit
        snake :=
          { body := (movedHead k a.direction p :: p :: t).take
                      ((a.snake.length + 1) % 65536)
            head := a.snake.head
            length := (a.snake.length + 1) % 65536 }
        apple := Apple.default r
        direction := newDirection k a.direction } := by
  unfold App.handleKeyEvent
  dsimp only
  rw [keyUpdate_snake, hb]
  simp only [App.eatApple, keyUpdate_snake, keyUpdate_apple, keyUpdate_direction,
    keyUpdate_score, movedHead] at heat ⊢
  rw [if_pos heat]

/-- One tick in the non-consuming case: if the moved head differs from the
apple position, `handle_key_event` leaves score, length and apple alone and
trims the extended body back to the old length. -/
lemma handleKeyEvent_noeat (k : KeyCode) (r : Nat × Nat) (a : App)
    (p : Nat × Nat) (t : List (Nat × Nat))
    (hb : a.snake.body = p :: t)
    (hne : movedHead k a.direction p ≠ a.apple.position) :
    a.handleKeyEvent k r = some
      { score := a.score
        exit := (keyUpdate k a).exit
        snake :=
          { body := (movedHead k a.direction p :: p :: t).take a.snake.length
            head := a.snake.head
            length := a.snake.length }
        apple := a.apple
        direction := newDirection k a.direction } := by
  unfold App.handleKeyEvent
  dsimp only
  rw [keyUpdate_snake, hb]
  simp only [App.eatApple, keyUpdate_snake, keyUpdate_apple, keyUpdate_direction,
    keyUpdate_score, movedHead] at hne ⊢
  rw [if_neg hne]

lemma oscBody_eq (n : Nat) : oscBody n = oscPos n :: oscTail n := by
  cases n <;> rfl

lemma oscBody_length (n : Nat) : (oscBody n).length = n + 1 := by
  induction n with
  | zero => rfl
  | succ n ih => simp [oscBody, ih]

lemma oscPos_add_two (n : Nat) : oscPos (n + 2) = oscPos n := by
  simp [oscPos, Nat.add_mod_right]

lemma oscState_step (n : Nat) (hn : n ≤ 65533) :
    (oscState n).handleKeyEvent (oscKey n) (oscPos (n + 2)) =
      some (oscState (n + 1) ) := by
  have hlen : (n + 1) % 65536 = n + 1 := Nat.mod_eq_of_lt (by omega)
  have hlen2 : (n + 2) % 65536 = n + 2 := Nat.mod_eq_of_lt (by omega)
  have hb : (oscState n).snake.body = oscPos n :: oscTail n := oscBody_eq n
  rcases Nat.mod_two_eq_zero_or_one n with h2 | h2
  · have h21 : (n + 1) % 2 = 1 := by omega
    have hk : oscKey n = .right := by simp [oscKey, h2]
    have hmv : movedHead (oscKey n) (oscState n).direction (oscPos n)
        = (oscState n).apple.position := by
      simp [hk, movedHead, newDirection, oscState, oscPos, h2, h21, wrap16]
    have := handleKeyEvent_eats (oscKey n) (oscPos (n + 2)) (oscState n)
      (oscPos n) (oscTail n) hb hmv
    rw [this]
    have hmv2 : movedHead (oscKey n) (oscState n).direction (oscPos n) = oscPos (n + 1) := by
      rw [hmv]; simp [oscState]
    rw [hmv2]
    have hbody : oscPos (n + 1) :: oscPos n :: oscTail n = oscBody (n + 1) := by
      rw [← oscBody_eq]; rfl
    rw [hbody]
    have htake : (oscBody (n + 1)).take (((oscState n).snake.length + 1) % 65536)
        = oscBody (n + 1) := by
      have : ((oscState n).snake.length + 1) % 65536 = n + 2 := by
        simp [oscState, hlen]; omega
      rw [this, ← oscBody_length (n + 1)]
      exact List.take_length _
    simp only [oscState, htake]
    simp [hk, keyUpdate, newDirection, oscDir, Apple.default, oscPos_add_two,
      hlen, hlen2, Nat.mod_add_mod, h21, oscBody_length]
  · have h21 : (n + 1) % 2 = 0 := by omega
    have hk : oscKey n = .left := by simp [oscKey, h2]
    have hmv : movedHead (oscKey n) (oscState n).direction (oscPos n)
        = (oscState n).apple.position := by
      simp [hk, movedHead, newDirection, oscState, oscPos, h2, h21, wrap16]
    have := handleKeyEvent_eats (oscKey n) (oscPos (n + 2)) (oscState n)
      (oscPos n) (oscTail n) hb hmv
    rw [this]
    have hmv2 : movedHead (oscKey n) (oscState n).direction (oscPos n) = oscPos (n + 1) := by
      rw [hmv]; simp [oscState]
    rw [hmv2]
    have hbody : oscPos (n + 1) :: oscPos n :: oscTail n = oscBody (n + 1) := by
      rw [← oscBody_eq]; rfl
    rw [hbody]
    have htake : (oscBody (n + 1)).take (((oscState n).snake.length + 1) % 65536)
        = oscBody (n + 1) := by
      have : ((oscState n).snake.length + 1) % 65536 = n + 2 := by
        simp [oscState, hlen]; omega
      rw [this, ← oscBody_length (n + 1)]
      exact List.take_length _
    simp only [oscState, htake]
    simp [hk, keyUpdate, newDirection, oscDir, Apple.default, oscPos_add_two,
      hlen, hlen2, Nat.mod_add_mod, h21, oscBody_length]

lemma handleKeyEvent_nil (k : KeyCode) (r : Nat × Nat) (a : App)
    (hb : a.snake.body = []) : a.handleKeyEvent k r = none := by
  unfold App.handleKeyEvent
  dsimp only
  rw [keyUpdate_snake, hb]

lemma head_take_cons {α : Type} (n : Nat) (hn : 1 ≤ n) (x : α) (l : List α) :
    ((x :: l).take n).head? = some x := by
  cases n with
  | zero => omega
  | succ m => rfl

/-- Generic shape of one tick from a cons body whose length counter is
neither zero nor about to wrap: the call succeeds, the exit flag and the
direction come from the key match, the new head is the moved old head, and
the score changes exactly on consumption. -/
lemma tick_shape (k : KeyCode) (r : Nat × Nat) (a : App)
    (p : Nat × Nat) (t : List (Nat × Nat))
    (hb : a.snake.body = p :: t) (h1 : 1 ≤ a.snake.length)
    (h2 : a.snake.length < 65535) :
    ∃ a', a.handleKeyEvent k r = some a' ∧
      a'.exit = (keyUpdate k a).exit ∧
      a'.direction = newDirection k a.direction ∧
      a'.snake.body.head? = some (movedHead k a.direction p) ∧
      a'.score = (if movedHead k a.direction p = a.apple.position
                  then (a.score + 1) % 256 else a.score) := by
  by_cases heat : movedHead k a.direction p = a.apple.position
  · refine ⟨_, handleKeyEvent_eats k r a p t hb heat, rfl, rfl, ?_, ?_⟩
    · have hmod : (a.snake.length + 1) % 65536 = a.snake.length + 1 :=
        Nat.mod_eq_of_lt (by omega)
      show ((movedHead k a.direction p :: p :: t).take
        ((a.snake.length + 1) % 65536)).head? = some (movedHead k a.direction p)
      rw [hmod]
      exact head_take_cons _ (by omega) _ _
    · rw [if_pos heat]
  · refine ⟨_, handleKeyEvent_noeat k r a p t hb heat, rfl, rfl, ?_, ?_⟩
    · exact head_take_cons _ h1 _ _
    · rw [if_neg heat]

/-- One tick preserves the equality between the body size and the length
counter (the trim loop restores it in both the eating and non-eating case). -/
lemma step_preserves_len_eq (k : KeyCode) (r : Nat × Nat) (a a' : App)
    (hlen : a.snake.body.length = a.snake.length)
    (h : a.handleKeyEvent k r = some a') :
    a'.snake.body.length = a'.snake.length := by
  cases hb : a.snake.body with
  | nil => rw [handleKeyEvent_nil k r a hb] at h; cases h
  | cons p t =>
    rw [hb] at hlen
    simp only [List.length_cons] at hlen
    by_cases heat : movedHead k a.direction p = a.apple.position
    · rw [handleKeyEvent_eats k r a p t hb heat] at h
      injection h with h
      subst h
      simp only [List.length_take, List.length_cons]
      have := Nat.mod_le (a.snake.length + 1) 65536
      omega
    · rw [handleKeyEvent_noeat k r a p t hb heat] at h
      injection h with h
      subst h
      simp only [List.length_take, List.length_cons]
      omega

/-- Every reachable state satisfies `len(body) = length`. -/
lemma reachable_len_eq (s : App) (h : Reachable s) :
    s.snake.body.length = s.snake.length := by
  induction h with
  | init r hr => rfl
  | step s s' k r hs hr hstep ih => exact step_preserves_len_eq k r s s' ih hstep

/-- One tick either keeps the apple or replaces it with a fresh draw. -/
lemma step_apple (k : KeyCode) (r : Nat × Nat) (a a' : App)
    (h : a.handleKeyEvent k r = some a') :
    a'.apple = a.apple ∨ a'.apple = Apple.default r := by
  cases hb : a.snake.body with
  | nil => rw [handleKeyEvent_nil k r a hb] at h; cases h
  | cons p t =>
    by_cases heat : movedHead k a.direction p = a.apple.position
    · rw [handleKeyEvent_eats k r a p t hb heat] at h
      injection h with h
      subst h
      right; rfl
    · rw [handleKeyEvent_noeat k r a p t hb heat] at h
      injection h with h
      subst h
      left; rfl

lemma oscRand_valid (n : Nat) : ValidRand (oscPos n) := by
  unfold ValidRand oscPos
  split <;> simp

lemma oscState_zero : oscState 0 = App.default (85, 7) := by
  rfl

lemma oscState_reachable : ∀ n, n ≤ 65534 → Reachable (oscState n) := by
  intro n
  induction n with
  | zero =>
    intro _
    rw [oscState_zero]
    exact Reachable.init (85, 7) (by decide)
  | succ n ih =>
    intro hn
    exact Reachable.step _ _ (oscKey n) (oscPos (n + 2)) (ih (by omega))
      (oscRand_valid _) (oscState_step n (by omega))

/-- The 65535-th consumption wraps the u16 length counter to 0, so the trim
loop empties the body. -/
lemma oscState_crash :
    (oscState 65534).handleKeyEvent .right (84, 7) = some crashState := by
  have hb : (oscState 65534).snake.body = oscPos 65534 :: oscTail 65534 := oscBody_eq _
  have hmv : movedHead .right (oscState 65534).direction (oscPos 65534)
      = (oscState 65534).apple.position := by
    norm_num [movedHead, newDirection, oscState, oscPos, wrap16]
    decide
  rw [handleKeyEvent_eats .right (84, 7) _ _ _ hb hmv]
  norm_num [oscState, crashState, keyUpdate, newDirection, Apple.default]

/-- C1 counterexample: from the Running state `App.default (0, 1)`, applying
the Quit signal does not leave the snake body at its pre-call value — the
unconditional movement tick after the key match advances the head from
(84,7) to (85,7), so the claim "body, food, score identical and only the
terminated flag changed" is false on the code. -/
theorem quit_tick_changes_body_cex :
    (App.default (0, 1)).exit = false ∧
    (App.default (0, 1)).handleKeyEvent .charQ (0, 1) = some qAfter1 ∧
    qAfter1.snake.body ≠ (App.default (0, 1)).snake.body :=
  ⟨rfl, by decide, by decide⟩

/-- C1 (amended): applying Quit sets the exit flag but still performs one
movement tick — the stored heading is kept and the head advances by it;
shown for any state with a cons body whose length counter is neither zero
nor about to wrap. -/
theorem quit_sets_exit_still_ticks (a : App) (r : Nat × Nat)
    (p : Nat × Nat) (t : List (Nat × Nat))
    (hb : a.snake.body = p :: t) (h1 : 1 ≤ a.snake.length)
    (h2 : a.snake.length < 65535) :
    ∃ a', a.handleKeyEvent .charQ r = some a' ∧
      a'.exit = true ∧
      a'.direction = a.direction ∧
      a'.snake.body.head? = some (movedHead .charQ a.direction p) := by
  obtain ⟨a', h, hexit, hdir, hhead, _⟩ := tick_shape .charQ r a p t hb h1 h2
  exact ⟨a', h, by rw [hexit]; rfl, by rw [hdir]; rfl, hhead⟩

/-- Witness for the amended C1 at the initial state. -/
theorem quit_sets_exit_still_ticks_witness :
    ∃ a', (App.default (0, 1)).handleKeyEvent .charQ (3, 3) = some a' ∧
      a'.exit = true ∧
      a'.direction = (App.default (0, 1)).direction ∧
      a'.snake.body.head? =
        some (movedHead .charQ (App.default (0, 1)).direction (84, 7)) :=
  quit_sets_exit_still_ticks (App.default (0, 1)) (3, 3) (84, 7) [] rfl
    (by decide) (by decide)

/-- C2 counterexample: a key outside the recognized set still triggers a
movement tick, so the resulting state differs from the pre-call state (the
body has moved), refuting the byte-for-byte no-op contract. -/
theorem ignored_key_mutates_cex :
    (App.default (0, 1)).handleKeyEvent .other (0, 1) = some otherAfter ∧
    otherAfter ≠ App.default (0, 1) :=
  ⟨by decide, by decide⟩

/-- C2 (amended): an unrecognized key leaves the exit flag and the stored
heading unchanged, but still performs one movement tick in the current
heading. -/
theorem ignored_key_still_ticks (a : App) (r : Nat × Nat)
    (p : Nat × Nat) (t : List (Nat × Nat))
    (hb : a.snake.body = p :: t) (h1 : 1 ≤ a.snake.length)
    (h2 : a.snake.length < 65535) :
    ∃ a', a.handleKeyEvent .other r = some a' ∧
      a'.exit = a.exit ∧
      a'.direction = a.direction ∧
      a'.snake.body.head? = some (movedHead .other a.direction p) := by
  obtain ⟨a', h, hexit, hdir, hhead, _⟩ := tick_shape .other r a p t hb h1 h2
  exact ⟨a', h, by rw [hexit]; rfl, by rw [hdir]; rfl, hhead⟩

/-- Witness for the amended C2 at the initial state. -/
theorem ignored_key_still_ticks_witness :
    ∃ a', (App.default (0, 1)).handleKeyEvent .other (3, 3) = some a' ∧
      a'.exit = (App.default (0, 1)).exit ∧
      a'.direction = (App.default (0, 1)).direction ∧
      a'.snake.body.head? =
        some (movedHead .other (App.default (0, 1)).direction (84, 7)) :=
  ignored_key_still_ticks (App.default (0, 1)) (3, 3) (84, 7) [] rfl
    (by decide) (by decide)

/-- C3 counterexample: moving Left from x = 0 does not wrap to the claimed
play-field width 168 minus one; the i16-to-u16 cast wraps modulo 2^16 and
the head lands at x = 65535, not 167. -/
theorem left_wrap_168_cex :
    edgeState.handleKeyEvent .left (3, 3) = some edgeResult ∧
    edgeResult.snake.body = [(65535, 0)] ∧
    edgeResult.snake.body ≠ [(167, 0)] :=
  ⟨by decide, rfl, by decide⟩

/-- C3 (amended): from body [(0,0)], applying Direction(Left) wraps the head
abscissa modulo 2^16 to 65535 (there is no 168-wide bound in the code); with
any food position different from (65535,0) there is no consumption and the
body becomes [(65535,0)]. -/
theorem left_from_zero_wraps_mod_u16 (ap r : Nat × Nat) (u : String)
    (d : Int × Int) (hne : ap ≠ (65535, 0)) :
    App.handleKeyEvent .left r
      { score := 0, exit := false
        snake := { body := [(0, 0)], head := "X", length := 1 }
        apple := { position := ap, unit := u }
        direction := d } = some
      { score := 0, exit := false
        snake := { body := [(65535, 0)], head := "X", length := 1 }
        apple := { position := ap, unit := u }
        direction := (-1, 0) } := by
  have hmv : movedHead .left d (0, 0) = (65535, 0) := by
    rfl
  have hne' : movedHead .left d (0, 0) ≠
      (Apple.mk ap u).position := by
    rw [hmv]
    exact fun hc => hne hc.symm
  rw [handleKeyEvent_noeat .left r _ (0, 0) [] rfl hne', hmv]
  rfl

/-- Witness for the amended C3 with food at (5,5). -/
theorem left_from_zero_wraps_mod_u16_witness :
    App.handleKeyEvent .left (3, 3)
      { score := 0, exit := false
        snake := { body := [(0, 0)], head := "X", length := 1 }
        apple := { position := (5, 5), unit := "🍎" }
        direction := (1, 0) } = some
      { score := 0, exit := false
        snake := { body := [(65535, 0)], head := "X", length := 1 }
        apple := { position := (5, 5), unit := "🍎" }
        direction := (-1, 0) } :=
  left_from_zero_wraps_mod_u16 (5, 5) (3, 3) "🍎" (1, 0) (by decide)

/-- C4: growth invariant — for every reachable state, any key event that
completes a movement tick leaves the body with exactly `length` segments. -/
theorem growth_invariant_after_tick (s s' : App) (k : KeyCode) (r : Nat × Nat)
    (hr : Reachable s) (h : s.handleKeyEvent k r = some s') :
    s'.snake.body.length = s'.snake.length :=
  step_preserves_len_eq k r s s' (reachable_len_eq s hr) h

/-- Witness for C4 after one tick from the initial state. -/
theorem growth_invariant_after_tick_witness :
    otherAfter.snake.body.length = otherAfter.snake.length :=
  growth_invariant_after_tick (App.default (0, 1)) otherAfter .other (0, 1)
    (Reachable.init (0, 1) (by decide)) (by decide)

/-- C5 counterexample: the u8 score wraps. The state after 255 consuming
oscillation steps is reachable and holds score 255; one further consuming
tick sets the score to (255+1) mod 256 = 0, strictly below its pre-call
value — refuting monotonic non-decrease at the maximum representable
value. -/
theorem score_wrap_cex :
    Reachable (oscState 255) ∧
    (oscState 255).score = 255 ∧
    (oscState 255).handleKeyEvent (oscKey 255) (oscPos 257) = some (oscState 256) ∧
    (oscState 256).score = 0 ∧
    (oscState 256).score < (oscState 255).score :=
  ⟨oscState_reachable 255 (by norm_num), rfl,
   oscState_step 255 (by norm_num), rfl, by decide⟩

/-- C5 (amended): per tick the score becomes (score+1) mod 256 exactly when
the post-move head equals the food position and is unchanged otherwise; it
is non-decreasing whenever the pre-call score is below the u8 maximum
255. -/
theorem score_update_law (a a' : App) (k : KeyCode) (r : Nat × Nat)
    (p : Nat × Nat) (t : List (Nat × Nat))
    (hb : a.snake.body = p :: t)
    (h : a.handleKeyEvent k r = some a') :
    a'.score = (if movedHead k a.direction p = a.apple.position
                then (a.score + 1) % 256 else a.score) ∧
    (a.score < 255 → a.score ≤ a'.score) := by
  by_cases heat : movedHead k a.direction p = a.apple.position
  · rw [handleKeyEvent_eats k r a p t hb heat] at h
    injection h with h
    subst h
    refine ⟨by rw [if_pos heat], ?_⟩
    intro hlt
    show a.score ≤ (a.score + 1) % 256
    rw [Nat.mod_eq_of_lt (by omega)]
    omega
  · rw [handleKeyEvent_noeat k r a p t hb heat] at h
    injection h with h
    subst h
    exact ⟨by rw [if_neg heat], fun _ => le_refl _⟩

/-- Witness for the amended C5 on the Scenario A consumption tick. -/
theorem score_update_law_witness :
    scenABad.score = (if movedHead .right scenA.direction (5, 5)
                        = scenA.apple.position
                      then (scenA.score + 1) % 256 else scenA.score) ∧
    (scenA.score < 255 → scenA.score ≤ scenABad.score) :=
  score_update_law scenA scenABad .right (6, 5) (5, 5) [] rfl (by decide)

/-- C6: the food-consumption check of a tick is decided exactly by comparing
the food position with the head position after that tick's move: the
score/length/apple update happens when the moved head equals the food and
is absent when it differs, for every state, key and draw. -/
theorem consumption_checks_postmove_head (a a' : App) (k : KeyCode)
    (r : Nat × Nat) (p : Nat × Nat) (t : List (Nat × Nat))
    (hb : a.snake.body = p :: t)
    (h : a.handleKeyEvent k r = some a') :
    (movedHead k a.direction p = a.apple.position →
        a'.score = (a.score + 1) % 256 ∧
        a'.snake.length = (a.snake.length + 1) % 65536 ∧
        a'.apple = Apple.default r) ∧
    (movedHead k a.direction p ≠ a.apple.position →
        a'.score = a.score ∧
        a'.snake.length = a.snake.length ∧
        a'.apple = a.apple) := by
  by_cases heat : movedHead k a.direction p = a.apple.position
  · rw [handleKeyEvent_eats k r a p t hb heat] at h
    injection h with h
    subst h
    exact ⟨fun _ => ⟨rfl, rfl, rfl⟩, fun hc => absurd heat hc⟩
  · rw [handleKeyEvent_noeat k r a p t hb heat] at h
    injection h with h
    subst h
    exact ⟨fun hc => absurd hc heat, fun _ => ⟨rfl, rfl, rfl⟩⟩

/-- Witness for C6 on the Scenario A consumption tick. -/
theorem consumption_checks_postmove_head_witness :
    (movedHead .right scenA.direction (5, 5) = scenA.apple.position →
        scenABad.score = (scenA.score + 1) % 256 ∧
        scenABad.snake.length = (scenA.snake.length + 1) % 65536 ∧
        scenABad.apple = Apple.default (6, 5)) ∧
    (movedHead .right scenA.direction (5, 5) ≠ scenA.apple.position →
        scenABad.score = scenA.score ∧
        scenABad.snake.length = scenA.snake.length ∧
        scenABad.apple = scenA.apple) :=
  consumption_checks_postmove_head scenA scenABad .right (6, 5) (5, 5) []
    rfl (by decide)

/-- C7 counterexample: applying Quit twice is not idempotent on the full
state — each application still runs a movement tick, so the body after the
second call differs from the body after the first. -/
theorem quit_not_idempotent_cex :
    (App.default (0, 1)).handleKeyEvent .charQ (0, 1) = some qAfter1 ∧
    qAfter1.handleKeyEvent .charQ (0, 1) = some qAfter2 ∧
    qAfter1 ≠ qAfter2 :=
  ⟨by decide, by decide, by decide⟩

/-- C7 (amended): Quit is idempotent on the exit flag only — any successful
application of the Quit signal leaves the flag true, so the flag after a
second application equals the flag after the first, while the snake keeps
moving. -/
theorem quit_idempotent_on_exit_flag (a a' : App) (r : Nat × Nat)
    (h : a.handleKeyEvent .charQ r = some a') : a'.exit = true := by
  cases hb : a.snake.body with
  | nil => rw [handleKeyEvent_nil .charQ r a hb] at h; cases h
  | cons p t =>
    by_cases heat : movedHead .charQ a.direction p = a.apple.position
    · rw [handleKeyEvent_eats .charQ r a p t hb heat] at h
      injection h with h
      subst h
      rfl
    · rw [handleKeyEvent_noeat .charQ r a p t hb heat] at h
      injection h with h
      subst h
      rfl

/-- Witness for the amended C7 on the second Quit application. -/
theorem quit_idempotent_on_exit_flag_witness : qAfter2.exit = true :=
  quit_idempotent_on_exit_flag qAfter1 qAfter2 (0, 1) (by decide)

/-- C8 counterexample: in Scenario A the respawned food is NOT guaranteed to
differ from the consumed cell (6,5) — the in-range draw (6,5) is a possible
outcome of the random source and puts the new food exactly there. -/
theorem respawn_on_eaten_cell_cex :
    ValidRand (6, 5) ∧
    scenA.handleKeyEvent .right (6, 5) = some scenABad ∧
    scenABad.apple.position = (6, 5) :=
  ⟨by decide, by decide, rfl⟩

/-- C8 (amended): Scenario A with body [(5,5)], food (6,5): one Right tick
yields head (6,5), score 1, length 2, body [(6,5),(5,5)] head-to-tail, and
the food reassigned to the fresh random draw — which lies in the spawn
rectangle but may equal (6,5). -/
theorem scenarioA_outcome (r : Nat × Nat) (_hv : ValidRand r) :
    scenA.handleKeyEvent .right r = some
      { score := 1
        exit := false
        snake := { body := [(6, 5), (5, 5)], head := "X", length := 2 }
        apple := Apple.default r
        direction := (1, 0) } := by
  have hmv : movedHead .right scenA.direction (5, 5) = scenA.apple.position := by
    decide
  rw [handleKeyEvent_eats .right r scenA (5, 5) [] rfl hmv]
  rfl

/-- Witness for the amended C8 with the draw (10,3). -/
theorem scenarioA_outcome_witness :
    scenA.handleKeyEvent .right (10, 3) = some
      { score := 1
        exit := false
        snake := { body := [(6, 5), (5, 5)], head := "X", length := 2 }
        apple := Apple.default (10, 3)
        direction := (1, 0) } :=
  scenarioA_outcome (10, 3) (by decide)

/-- C9 counterexample: a reachable state with an empty snake body exists —
after 65535 consumptions the u16 length counter wraps to 0 and the trim
loop empties the body; the next head read (body index 0) is out of bounds,
i.e. the next tick panics (`none`). -/
theorem reachable_empty_body_cex :
    Reachable crashState ∧
    crashState.snake.body = [] ∧
    crashState.handleKeyEvent .other (5, 5) = none :=
  ⟨Reachable.step (oscState 65534) crashState .right (84, 7)
      (oscState_reachable 65534 (by norm_num)) (by decide) oscState_crash,
    rfl, rfl⟩

/-- C9 (amended): in every reachable state whose length counter is still
positive (which holds until the counter wraps after 65535 consumptions) the
body is nonempty and every head read of the next tick is in bounds: the
tick completes without panic. -/
theorem head_read_safe_when_length_pos (s : App) (hr : Reachable s)
    (hl : 1 ≤ s.snake.length) :
    s.snake.body ≠ [] ∧ ∀ k r, (s.handleKeyEvent k r).isSome = true := by
  have hlen := reachable_len_eq s hr
  have hne : s.snake.body ≠ [] := by
    intro hnil
    rw [hnil] at hlen
    simp only [List.length_nil] at hlen
    omega
  refine ⟨hne, ?_⟩
  intro k r
  cases hb : s.snake.body with
  | nil => exact absurd hb hne
  | cons p t =>
    by_cases heat : movedHead k s.direction p = s.apple.position
    · rw [handleKeyEvent_eats k r s p t hb heat]; rfl
    · rw [handleKeyEvent_noeat k r s p t hb heat]; rfl

/-- Witness for the amended C9 at the initial state. -/
theorem head_read_safe_when_length_pos_witness :
    (App.default (0, 1)).snake.body ≠ [] ∧
    ∀ k r, ((App.default (0, 1)).handleKeyEvent k r).isSome = true :=
  head_read_safe_when_length_pos (App.default (0, 1))
    (Reachable.init (0, 1) (by decide)) (by decide)

/-- C10: in every reachable state the food position lies in the fixed
sub-rectangle x in [0,167), y in [1,14): the initial draw and every respawn
come from `gen_range(0..167)` x `gen_range(1..14)`, so food never sits on
the top row y = 0. -/
theorem food_position_in_range (s : App) (hr : Reachable s) :
    s.apple.position.1 < 167 ∧ 1 ≤ s.apple.position.2 ∧ s.apple.position.2 < 14 := by
  induction hr with
  | init r hrand => exact hrand
  | step s s' k r hs hrand hstep ih =>
    rcases step_apple k r s s' hstep with he | he
    · rw [he]; exact ih
    · rw [he]; exact hrand

/-- Witness for C10 at the initial state with draw (0,1). -/
theorem food_position_in_range_witness :
    (App.default (0, 1)).apple.position.1 < 167 ∧
    1 ≤ (App.default (0, 1)).apple.position.2 ∧
    (App.default (0, 1)).apple.position.2 < 14 :=
  food_position_in_range (App.default (0, 1)) (Reachable.init (0, 1) (by decide))
